import Mathlib

/-!
Shallow embedding of the two Poisson spike-generator devices of the
SpikingCerebellum repository (cd_poisson_generator.cpp / .h and
rbf_poisson_generator.cpp).

Modelling conventions:
* C++ `double` arithmetic is modelled exactly: by `ℚ` for the linear
  (cd) variant, whose rate mapping is rational, and by `ℝ` for the RBF
  variant, whose rate mapping uses `std::exp`.
* The per-thread random source consumed by `PoissonRandomDev::ldev` is
  an oracle `rng : ℕ → ℤ`: the k-th call to `ldev` returns `rng k`.
  The distribution itself lives in the external librandom collaborator;
  only the number and order of draws, and the lambda in force at each
  draw, are modelled.
* Device activity is recorded in a trace of actions (buffer drain,
  rate store, lambda update, random draw, spike emission) so that
  ordering and counting claims can be stated.
* The data logger (`B_.logger_`) and the kernel's event routing are
  out-of-scope collaborators; `record_data` calls are not traced.
  For the RBF device the kernel delivers a `DSSpikeEvent` sent during
  `update` synchronously to each connected target, invoking the
  sender's `event_hook` once per target (standard NEST DS-event
  delivery); we model a single connected target, so each send in the
  update loop triggers exactly one `event_hook` call at that lag.
-/

/-- Observable actions of a generator device, in program order.
`drain lag v` models `B_.currents_.get_value(lag)` returning `v`;
`setRate r` models the assignment `S_.rate_ = rate`;
`setLambda l` models `V_.poisson_dev_.set_lambda(l)`;
`draw l n` models `V_.poisson_dev_.ldev(rng)` returning `n` while the
device's lambda is `l`; `emit lag n` models sending a spike event with
multiplicity `n` at offset `lag`. -/
inductive DevAction (α : Type) where
  | drain (lag : ℤ) (v : α)
  | setRate (r : α)
  | setLambda (l : α)
  | draw (l : α) (n : ℤ)
  | emit (lag : ℤ) (n : ℤ)
deriving DecidableEq, Repr

/-- The half-open slice `[lo, hi)` of step offsets, in increasing order,
as iterated by `for (long lag = from; lag < to; ++lag)`. -/
def lagList (lo hi : ℤ) : List ℤ :=
  (List.range (hi - lo).toNat).map (fun i => lo + (i : ℤ))

namespace CdGen

/-- Parameters_ of cd_poisson_generator (header, struct Parameters_). -/
structure Parameters where
  min_rate_ : ℚ
  max_rate_ : ℚ
  min_current_ : ℚ
  max_current_ : ℚ
deriving DecidableEq, Repr

/-- Default parameter values (Parameters_::Parameters_()). -/
def defaultParameters : Parameters :=
  { min_rate_ := 1, max_rate_ := 10, min_current_ := 0, max_current_ := 1 }

/-- State_ of cd_poisson_generator. -/
structure State where
  rate_ : ℚ
  input_current_ : ℚ
deriving DecidableEq, Repr

/-- Default state values (State_::State_(const Parameters_&)). -/
def defaultState : State := { rate_ := 5, input_current_ := 0 }

/-- The rate computation block that appears verbatim both in
`cd_poisson_generator::calibrate` (cpp lines 184-197) and in
`cd_poisson_generator::update` (cpp lines 225-238):

if (input <= min_current) rate = min_rate;
else if (input >= max_current) rate = max_rate;
else rate = (input - min_current)/(max_current - min_current)
            * (max_rate - min_rate) + min_rate. -/
def linearRate (P : Parameters) (input_current : ℚ) : ℚ :=
  if input_current ≤ P.min_current_ then P.min_rate_
  else if input_current ≥ P.max_current_ then P.max_rate_
  else
    (input_current - P.min_current_) / (P.max_current_ - P.min_current_)
      * (P.max_rate_ - P.min_rate_) + P.min_rate_

/-- Guard deciding whether evaluation of the rate block reaches the
interpolation branch, the only site containing a division: both outer
`if` tests must fail. -/
def interpReached (P : Parameters) (input_current : ℚ) : Prop :=
  ¬ input_current ≤ P.min_current_ ∧ ¬ input_current ≥ P.max_current_

instance (P : Parameters) (i : ℚ) : Decidable (interpReached P i) := by
  unfold interpReached; infer_instance

/-- Dynamic device context during `update`: the mutable State_, the
Poisson deviate's current lambda, the number of random draws consumed
so far, the action trace, and the spike events sent so far as
(lag, multiplicity) pairs. -/
structure Machine where
  S : State
  lambda : ℚ
  k : ℕ
  trace : List (DevAction ℚ)
  events : List (ℤ × ℤ)
deriving DecidableEq, Repr

/-- cd_poisson_generator::calibrate (cpp lines 180-201): recompute the
rate from the stored input current, store it, and set the deviate's
lambda to `resolution_ms * rate * 1e-3`. Returns the updated machine. -/
def calibrate (P : Parameters) (res : ℚ) (m : Machine) : Machine :=
  let rate := linearRate P m.S.input_current_
  let lam := res * rate * (1 / 1000)
  { m with
    S := { m.S with rate_ := rate }
    lambda := lam
    trace := m.trace ++ [DevAction.setRate rate, DevAction.setLambda lam] }

/-- The body of the `if (S_.input_current_ != new_current)` block of
`cd_poisson_generator::update` (cpp lines 221-243): when the drained
current differs from the stored one, store it, recompute the rate via
the linear block, store the rate and reset lambda. -/
def cdRateUpdate (P : Parameters) (res : ℚ) (new_current : ℚ) (m : Machine) : Machine :=
  if m.S.input_current_ ≠ new_current then
    let rate := linearRate P new_current
    let lam := res * rate * (1 / 1000)
    { m with
      S := { rate_ := rate, input_current_ := new_current }
      lambda := lam
      trace := m.trace ++ [DevAction.setRate rate, DevAction.setLambda lam] }
  else m

/-- The sampling/emission block of `cd_poisson_generator::update`
(cpp lines 246-255): if the current rate is positive, draw a Poisson
deviate; if the drawn count is positive, send one spike event carrying
it as multiplicity. -/
def cdSampleEmit (rng : ℕ → ℤ) (lag : ℤ) (m : Machine) : Machine :=
  if m.S.rate_ > 0 then
    let n := rng m.k
    let m1 := { m with k := m.k + 1, trace := m.trace ++ [DevAction.draw m.lambda n] }
    if n > 0 then
      { m1 with
        events := m1.events ++ [(lag, n)]
        trace := m1.trace ++ [DevAction.emit lag n] }
    else m1
  else m

/-- One iteration of the `for (long lag = from; lag < to; ++lag)` loop
of `cd_poisson_generator::update` (cpp lines 216-259): drain the
current buffer at `lag`, conditionally recompute rate and lambda, then
sample and emit. `getValue lag` models `B_.currents_.get_value(lag)`. -/
def cdStep (P : Parameters) (res : ℚ) (rng : ℕ → ℤ) (getValue : ℤ → ℚ)
    (lag : ℤ) (m : Machine) : Machine :=
  let new_current := getValue lag
  let m0 := { m with trace := m.trace ++ [DevAction.drain lag new_current] }
  cdSampleEmit rng lag (cdRateUpdate P res new_current m0)

/-- cd_poisson_generator::update over the slice `[lo, hi)`
(cpp lines 207-264). -/
def cdUpdate (P : Parameters) (res : ℚ) (rng : ℕ → ℤ) (getValue : ℤ → ℚ)
    (lo hi : ℤ) (m : Machine) : Machine :=
  (lagList lo hi).foldl (fun acc lag => cdStep P res rng getValue lag acc) m

/-- A status dictionary as consumed by the cd generator's `set`
functions: each key of Parameters_::set and State_::set (min_rate,
max_rate, min_current, max_current, rate, I) is present with a value or
absent; `updateValue<double>(d, key, field)` overwrites the field
exactly when the key is present. -/
structure Dict where
  min_rate : Option ℚ
  max_rate : Option ℚ
  min_current : Option ℚ
  max_current : Option ℚ
  rate : Option ℚ
  I : Option ℚ
deriving DecidableEq, Repr

/-- The four `updateValue` calls of Parameters_::set (cpp lines 97-100),
before the validity check. -/
def Parameters.applyDict (p : Parameters) (d : Dict) : Parameters :=
  { min_rate_ := d.min_rate.getD p.min_rate_
    max_rate_ := d.max_rate.getD p.max_rate_
    min_current_ := d.min_current.getD p.min_current_
    max_current_ := d.max_current.getD p.max_current_ }

/-- cd_poisson_generator::Parameters_::set (cpp lines 95-105): update
the four fields from the dictionary, then throw BadProperty iff
`min_rate_ < 0 || max_rate_ < 0`. -/
def Parameters.set (p : Parameters) (d : Dict) : Except String Parameters :=
  let p1 := p.applyDict d
  if p1.min_rate_ < 0 ∨ p1.max_rate_ < 0 then
    Except.error "The min_rate and max_rate parameters cannot be negative."
  else
    Except.ok p1

/-- cd_poisson_generator::State_::set (cpp lines 114-118): update rate_
from key `rate` and input_current_ from key `I`; never throws. -/
def State.set (s : State) (d : Dict) : State :=
  { rate_ := d.rate.getD s.rate_
    input_current_ := d.I.getD s.input_current_ }

/-- The live configuration data of one cd device instance. -/
structure Device where
  P_ : Parameters
  S_ : State
deriving DecidableEq, Repr

/-- cd_poisson_generator::set_status (header lines 256-268): copy P_
into a temporary, run Parameters_::set on it (which may throw), copy S_
into a temporary and run State_::set, and commit both temporaries only
if nothing threw. Returns the device after the call together with a
flag telling whether BadProperty propagated to the caller. -/
def set_status (dev : Device) (d : Dict) : Device × Bool :=
  match dev.P_.set d with
  | Except.error _ => (dev, true)
  | Except.ok ptmp => ({ P_ := ptmp, S_ := dev.S_.set d }, false)

end CdGen

namespace RbfGen

/-- Parameters_ of rbf_poisson_generator (cpp lines 341-347 give the
defaults; fields as read/written by Parameters_::get/set). -/
structure Parameters where
  min_rate_rbf_ : ℝ
  max_rate_rbf_ : ℝ
  mean_current_rbf_ : ℝ
  sigma_current_rbf_ : ℝ

/-- Default parameter values (Parameters_::Parameters_()). -/
noncomputable def defaultParameters : Parameters :=
  { min_rate_rbf_ := 1, max_rate_rbf_ := 10
    mean_current_rbf_ := 0, sigma_current_rbf_ := 1 }

/-- State_ of rbf_poisson_generator: only the rate. -/
structure State where
  rate_ : ℝ

/-- The gaussian factor of rbf_poisson_generator::update (cpp line 490):
`std::exp(-((avg - mean) * (avg - mean)) / (2 * sigma * sigma))`. -/
noncomputable def gaussianOf (P : Parameters) (average_current : ℝ) : ℝ :=
  Real.exp (-((average_current - P.mean_current_rbf_)
      * (average_current - P.mean_current_rbf_))
    / (2 * P.sigma_current_rbf_ * P.sigma_current_rbf_))

/-- The rate computed at the end of rbf_poisson_generator::update
(cpp lines 490-491):
`rate = min_rate_rbf + gaussian * (max_rate_rbf - min_rate_rbf)`. -/
noncomputable def rbfRate (P : Parameters) (average_current : ℝ) : ℝ :=
  P.min_rate_rbf_ + gaussianOf P average_current
    * (P.max_rate_rbf_ - P.min_rate_rbf_)

/-- Dynamic device context of the RBF generator, as for the cd variant
but with real-valued currents and rates. -/
structure Machine where
  S : State
  lambda : ℝ
  k : ℕ
  trace : List (DevAction ℝ)
  events : List (ℤ × ℤ)

/-- rbf_poisson_generator::event_hook (cpp lines 502-512): draw a
Poisson deviate with the lambda currently in force (one draw per
delivered DS spike event, with no guard on the rate); if the count is
positive, set it as the event's multiplicity and hand the event to the
receiver. -/
def event_hook (rng : ℕ → ℤ) (lag : ℤ) (m : Machine) : Machine :=
  let n := rng m.k
  let m1 := { m with k := m.k + 1, trace := m.trace ++ [DevAction.draw m.lambda n] }
  if n > 0 then
    { m1 with
      events := m1.events ++ [(lag, n)]
      trace := m1.trace ++ [DevAction.emit lag n] }
  else m1

/-- The `for (long lag = from; lag < to; ++lag)` loop of
rbf_poisson_generator::update (cpp lines 476-486): accumulate the
drained current into `current_sum` and send a DSSpikeEvent at each lag.
The kernel delivers the DS event synchronously to the (single modelled)
target, invoking event_hook. The fold state pairs the running
`current_sum` with the machine. -/
def rbfLoop (rng : ℕ → ℤ) (getValue : ℤ → ℝ) (lags : List ℤ)
    (acc : ℝ × Machine) : ℝ × Machine :=
  lags.foldl
    (fun acc lag =>
      let v := getValue lag
      let m0 := { acc.2 with trace := acc.2.trace ++ [DevAction.drain lag v] }
      (acc.1 + v, event_hook rng lag m0))
    acc

/-- rbf_poisson_generator::update over the slice `[lo, hi)`
(cpp lines 466-500): run the loop, then compute the average current
`current_sum / (to - from)`, the gaussian rate, store it, and set
lambda to `resolution_ms * rate * 1e-3` — once, after the loop. -/
noncomputable def rbfUpdate (P : Parameters) (res : ℝ) (rng : ℕ → ℤ)
    (getValue : ℤ → ℝ) (lo hi : ℤ) (m : Machine) : Machine :=
  let r := rbfLoop rng getValue (lagList lo hi) (0, m)
  let average_current := r.1 / ((hi - lo : ℤ) : ℝ)
  let rate := rbfRate P average_current
  let lam := res * rate * (1 / 1000)
  { r.2 with
    S := { rate_ := rate }
    lambda := lam
    trace := r.2.trace ++ [DevAction.setRate rate, DevAction.setLambda lam] }

/-- A status dictionary as consumed by the RBF generator's
Parameters_::set (keys min_rate, max_rate, mean_current,
sigma_current). -/
structure Dict where
  min_rate : Option ℝ
  max_rate : Option ℝ
  mean_current : Option ℝ
  sigma_current : Option ℝ

/-- The four `updateValue` calls of rbf Parameters_::set
(cpp lines 373-376), before the validity check. -/
noncomputable def Parameters.applyDict (p : Parameters) (d : Dict) : Parameters :=
  { min_rate_rbf_ := d.min_rate.getD p.min_rate_rbf_
    max_rate_rbf_ := d.max_rate.getD p.max_rate_rbf_
    mean_current_rbf_ := d.mean_current.getD p.mean_current_rbf_
    sigma_current_rbf_ := d.sigma_current.getD p.sigma_current_rbf_ }

/-- rbf_poisson_generator::Parameters_::set (cpp lines 371-381): update
the four fields from the dictionary, then throw BadProperty iff
`min_rate_rbf_ < 0 || max_rate_rbf_ < 0 || min_rate_rbf_ > max_rate_rbf_`. -/
noncomputable def Parameters.set (p : Parameters) (d : Dict) : Except String Parameters :=
  let p1 := p.applyDict d
  if p1.min_rate_rbf_ < 0 ∨ p1.max_rate_rbf_ < 0
      ∨ p1.min_rate_rbf_ > p1.max_rate_rbf_ then
    Except.error "The min_rate and max_rate parameters cannot be negative."
  else
    Except.ok p1

end RbfGen

/-- Observation helper: does a trace action store a rate into State_? -/
def isSetRateAct : DevAction ℝ → Bool
  | DevAction.setRate _ => true
  | _ => false

namespace CdGen

/-- The sampling/emission block never touches State_. -/
theorem cdSampleEmit_S (rng : ℕ → ℤ) (lag : ℤ) (m : Machine) :
    (cdSampleEmit rng lag m).S = m.S := by
  simp only [cdSampleEmit]
  split_ifs <;> rfl

/-- The sampling/emission block never touches lambda. -/
theorem cdSampleEmit_lambda (rng : ℕ → ℤ) (lag : ℤ) (m : Machine) :
    (cdSampleEmit rng lag m).lambda = m.lambda := by
  simp only [cdSampleEmit]
  split_ifs <;> rfl

/-- calibrate stores exactly the linear-block rate in State_. -/
theorem calibrate_S_rate (P : Parameters) (res : ℚ) (m : Machine) :
    (calibrate P res m).S.rate_ = linearRate P m.S.input_current_ := rfl

/-- The trace written by the sampling/emission block: nothing when the
rate is not positive; otherwise one draw under the lambda in force and
an emission exactly when the drawn count is positive. -/
theorem cdSampleEmit_trace (rng : ℕ → ℤ) (lag : ℤ) (m : Machine) :
    (cdSampleEmit rng lag m).trace =
      m.trace ++
        (if m.S.rate_ > 0 then
          [DevAction.draw m.lambda (rng m.k)] ++
            (if rng m.k > 0 then [DevAction.emit lag (rng m.k)] else [])
        else []) := by
  simp only [cdSampleEmit]
  split_ifs <;> simp

/-- The sampling/emission block consumes one draw exactly when the rate
is positive. -/
theorem cdSampleEmit_k (rng : ℕ → ℤ) (lag : ℤ) (m : Machine) :
    (cdSampleEmit rng lag m).k = if m.S.rate_ > 0 then m.k + 1 else m.k := by
  simp only [cdSampleEmit]
  split_ifs <;> rfl

/-- With a non-positive rate the sampling/emission block is the
identity: no draw, no event, no trace entry. -/
theorem cdSampleEmit_noRate (rng : ℕ → ℤ) (lag : ℤ) (m : Machine)
    (h : ¬ m.S.rate_ > 0) : cdSampleEmit rng lag m = m := by
  simp only [cdSampleEmit]
  rw [if_neg h]

end CdGen

namespace RbfGen

/-- event_hook never touches State_. -/
theorem event_hook_S (rng : ℕ → ℤ) (lag : ℤ) (m : Machine) :
    (event_hook rng lag m).S = m.S := by
  simp only [event_hook]
  split_ifs <;> rfl

/-- event_hook never touches lambda. -/
theorem event_hook_lambda (rng : ℕ → ℤ) (lag : ℤ) (m : Machine) :
    (event_hook rng lag m).lambda = m.lambda := by
  simp only [event_hook]
  split_ifs <;> rfl

/-- event_hook consumes exactly one random draw. -/
theorem event_hook_k (rng : ℕ → ℤ) (lag : ℤ) (m : Machine) :
    (event_hook rng lag m).k = m.k + 1 := by
  simp only [event_hook]
  split_ifs <;> rfl

/-- The trace written by event_hook: one draw under the lambda in
force, then an emission exactly when the drawn count is positive. -/
theorem event_hook_trace (rng : ℕ → ℤ) (lag : ℤ) (m : Machine) :
    (event_hook rng lag m).trace =
      m.trace ++ [DevAction.draw m.lambda (rng m.k)] ++
        (if rng m.k > 0 then [DevAction.emit lag (rng m.k)] else []) := by
  simp only [event_hook]
  split_ifs with h <;> simp

/-- The events sent by event_hook: one, carrying the drawn count as
multiplicity, exactly when that count is positive. -/
theorem event_hook_events (rng : ℕ → ℤ) (lag : ℤ) (m : Machine) :
    (event_hook rng lag m).events =
      m.events ++ (if rng m.k > 0 then [(lag, rng m.k)] else []) := by
  simp only [event_hook]
  split_ifs with h <;> simp

/-- If a draw action is in the trace after event_hook, it was already
there or it carries the device's (unchanged) lambda. -/
theorem event_hook_draw_mem (rng : ℕ → ℤ) (lag : ℤ) (m : Machine)
    (l : ℝ) (n : ℤ) :
    DevAction.draw l n ∈ (event_hook rng lag m).trace →
      DevAction.draw l n ∈ m.trace ∨ l = m.lambda := by
  rw [event_hook_trace]
  intro h
  rcases List.mem_append.mp h with h1 | h1
  · rcases List.mem_append.mp h1 with h2 | h2
    · exact Or.inl h2
    · simp only [List.mem_singleton, DevAction.draw.injEq] at h2
      exact Or.inr h2.1
  · exfalso
    split at h1 <;> simp_all

/-- One unrolling of the update loop. -/
theorem rbfLoop_cons (rng : ℕ → ℤ) (gv : ℤ → ℝ) (x : ℤ) (xs : List ℤ)
    (a : ℝ) (m : Machine) :
    rbfLoop rng gv (x :: xs) (a, m) =
      rbfLoop rng gv xs
        (a + gv x,
         event_hook rng x
           { m with trace := m.trace ++ [DevAction.drain x (gv x)] }) := rfl

/-- The empty update loop. -/
theorem rbfLoop_nil (rng : ℕ → ℤ) (gv : ℤ → ℝ) (a : ℝ) (m : Machine) :
    rbfLoop rng gv [] (a, m) = (a, m) := rfl

/-- The current_sum accumulated by the update loop is the sum of the
values drained at the lags of the slice. -/
theorem rbfLoop_fst (rng : ℕ → ℤ) (gv : ℤ → ℝ) (lags : List ℤ)
    (a : ℝ) (m : Machine) :
    (rbfLoop rng gv lags (a, m)).1 = a + (lags.map gv).sum := by
  induction lags generalizing a m with
  | nil => simp [rbfLoop_nil]
  | cons x xs ih =>
      rw [rbfLoop_cons, ih]
      simp only [List.map_cons, List.sum_cons]
      ring

/-- The update loop never touches State_. -/
theorem rbfLoop_snd_S (rng : ℕ → ℤ) (gv : ℤ → ℝ) (lags : List ℤ)
    (a : ℝ) (m : Machine) :
    (rbfLoop rng gv lags (a, m)).2.S = m.S := by
  induction lags generalizing a m with
  | nil => rw [rbfLoop_nil]
  | cons x xs ih =>
      rw [rbfLoop_cons, ih, event_hook_S]

/-- The update loop never touches lambda: all draws of a slice happen
under the lambda that was in force when the slice began. -/
theorem rbfLoop_snd_lambda (rng : ℕ → ℤ) (gv : ℤ → ℝ) (lags : List ℤ)
    (a : ℝ) (m : Machine) :
    (rbfLoop rng gv lags (a, m)).2.lambda = m.lambda := by
  induction lags generalizing a m with
  | nil => rw [rbfLoop_nil]
  | cons x xs ih =>
      rw [rbfLoop_cons, ih, event_hook_lambda]

/-- Every draw action recorded by the update loop that was not already
in the trace carries the pre-slice lambda. -/
theorem rbfLoop_draw_mem (rng : ℕ → ℤ) (gv : ℤ → ℝ) (lags : List ℤ)
    (a : ℝ) (m : Machine) (l : ℝ) (n : ℤ) :
    DevAction.draw l n ∈ (rbfLoop rng gv lags (a, m)).2.trace →
      DevAction.draw l n ∈ m.trace ∨ l = m.lambda := by
  induction lags generalizing a m with
  | nil =>
      intro h
      rw [rbfLoop_nil] at h
      exact Or.inl h
  | cons x xs ih =>
      intro h
      rw [rbfLoop_cons] at h
      rcases ih _ _ h with h' | h'
      · rcases event_hook_draw_mem _ _ _ _ _ h' with h2 | h2
        · rcases List.mem_append.mp h2 with h3 | h3
          · exact Or.inl h3
          · exfalso; simp_all
        · exact Or.inr h2
      · rw [event_hook_lambda] at h'
        exact Or.inr h'

/-- The update loop stores no rate: it appends only drain, draw and
emit actions, so the count of setRate actions is unchanged. -/
theorem rbfLoop_countP_setRate (rng : ℕ → ℤ) (gv : ℤ → ℝ) (lags : List ℤ)
    (a : ℝ) (m : Machine) :
    (rbfLoop rng gv lags (a, m)).2.trace.countP isSetRateAct =
      m.trace.countP isSetRateAct := by
  induction lags generalizing a m with
  | nil => rw [rbfLoop_nil]
  | cons x xs ih =>
      rw [rbfLoop_cons, ih, event_hook_trace]
      simp only [List.countP_append]
      split_ifs <;> simp [isSetRateAct]

end RbfGen

/-- Claim C1, counterexample: with min_rate = 1, max_rate = 10 and
min_current = max_current = 0, the input 0 satisfies
input_current ≥ max_current, so the claim requires the rate to equal
max_rate = 10; the code takes the min-saturation branch first and
returns min_rate = 1. -/
theorem C1_counterexample :
    (0 : ℚ) ≥ (CdGen.Parameters.mk 1 10 0 0).max_current_ ∧
    CdGen.linearRate (CdGen.Parameters.mk 1 10 0 0) 0 = 1 ∧
    CdGen.linearRate (CdGen.Parameters.mk 1 10 0 0) 0 ≠
      (CdGen.Parameters.mk 1 10 0 0).max_rate_ := by
  refine ⟨le_refl 0, ?_, ?_⟩ <;> decide

/-- Claim C1 (amended): the linear variant's rate block, identical in
update and calibrate, returns min_rate when input_current ≤ min_current;
returns max_rate when input_current ≥ max_current and
input_current > min_current (the min-saturation branch has priority);
and returns the interpolation
(input - min_current)/(max_current - min_current)*(max_rate - min_rate)
+ min_rate when min_current < input_current < max_current. calibrate
stores this value as the state's rate, and an update step on which the
drained current differs from the stored one does too. -/
theorem C1_linear_rate_contract (P : CdGen.Parameters) (I res : ℚ)
    (rng : ℕ → ℤ) (getValue : ℤ → ℚ) (lag : ℤ) (m : CdGen.Machine) :
    (I ≤ P.min_current_ → CdGen.linearRate P I = P.min_rate_) ∧
    (P.min_current_ < I → P.max_current_ ≤ I →
      CdGen.linearRate P I = P.max_rate_) ∧
    (P.min_current_ < I → I < P.max_current_ →
      CdGen.linearRate P I =
        (I - P.min_current_) / (P.max_current_ - P.min_current_)
          * (P.max_rate_ - P.min_rate_) + P.min_rate_) ∧
    (CdGen.calibrate P res m).S.rate_ = CdGen.linearRate P m.S.input_current_ ∧
    (m.S.input_current_ ≠ getValue lag →
      (CdGen.cdStep P res rng getValue lag m).S.rate_ =
        CdGen.linearRate P (getValue lag)) := by
  refine ⟨?_, ?_, ?_, CdGen.calibrate_S_rate P res m, ?_⟩
  · intro h
    simp [CdGen.linearRate, h]
  · intro h1 h2
    rw [CdGen.linearRate, if_neg (by exact not_le.mpr h1), if_pos (by exact h2)]
  · intro h1 h2
    rw [CdGen.linearRate, if_neg (by exact not_le.mpr h1),
      if_neg (by exact not_le.mpr h2)]
  · intro hch
    rw [CdGen.cdStep]
    rw [CdGen.cdSampleEmit_S]
    simp only [CdGen.cdRateUpdate]
    rw [if_pos (by exact hch)]

/-- Claim C1, witness: default-like parameters, input strictly inside
the saturation interval, interpolated value 11/2. -/
theorem C1_witness :
    (0 : ℚ) < 1 / 2 ∧ (1 / 2 : ℚ) < 1 ∧
    CdGen.linearRate (CdGen.Parameters.mk 1 10 0 1) (1 / 2) =
      (1 / 2 - 0) / (1 - 0) * (10 - 1) + 1 := by
  refine ⟨by norm_num, by norm_num, ?_⟩
  exact (C1_linear_rate_contract (CdGen.Parameters.mk 1 10 0 1) (1 / 2) 1
    (fun _ => 0) (fun _ => 0) 0
    (CdGen.Machine.mk (CdGen.State.mk 5 0) 0 0 [] [])).2.2.1
    (by norm_num) (by norm_num)

/-- Claim C2: the RBF rate computed at the end of an update slice is
min_rate_rbf + exp(-(avg - mean_current)^2 / (2 sigma_current^2)) *
(max_rate_rbf - min_rate_rbf), where avg is the slice average of the
drained currents; at avg = mean_current the rate equals max_rate_rbf. -/
theorem C2_rbf_rate_contract (P : RbfGen.Parameters)
    (hs : P.sigma_current_rbf_ ≠ 0) (avg res : ℝ) (rng : ℕ → ℤ)
    (gv : ℤ → ℝ) (lo hi : ℤ) (m : RbfGen.Machine) :
    RbfGen.rbfRate P avg =
      P.min_rate_rbf_ +
        Real.exp (-(avg - P.mean_current_rbf_) ^ 2
            / (2 * P.sigma_current_rbf_ ^ 2))
          * (P.max_rate_rbf_ - P.min_rate_rbf_) ∧
    (avg = P.mean_current_rbf_ → RbfGen.rbfRate P avg = P.max_rate_rbf_) ∧
    (RbfGen.rbfUpdate P res rng gv lo hi m).S.rate_ =
      RbfGen.rbfRate P (((lagList lo hi).map gv).sum / ((hi - lo : ℤ) : ℝ)) := by
  refine ⟨?_, ?_, ?_⟩
  · rw [RbfGen.rbfRate, RbfGen.gaussianOf]
    congr 2
    ring
  · intro h
    rw [h, RbfGen.rbfRate, RbfGen.gaussianOf]
    simp
  · simp only [RbfGen.rbfUpdate, RbfGen.rbfLoop_fst, zero_add]

/-- Claim C2, witness: sigma = 1 and avg = mean_current = 0 give the
maximal rate 10. -/
theorem C2_witness :
    ((RbfGen.Parameters.mk 1 10 0 1).sigma_current_rbf_ ≠ 0) ∧
    RbfGen.rbfRate (RbfGen.Parameters.mk 1 10 0 1) 0 = 10 :=
  ⟨one_ne_zero,
   (C2_rbf_rate_contract (RbfGen.Parameters.mk 1 10 0 1) one_ne_zero 0 1
      (fun _ => 0) (fun _ => 0) 0 1
      (RbfGen.Machine.mk (RbfGen.State.mk 5) 0 0 [] [])).2.1 rfl⟩

/-- Claim C3: at the emission sites of both variants (the sampling
block of the linear update loop, and the RBF event_hook), a drawn
count of 0 emits nothing, and a drawn count n > 0 emits exactly one
event whose multiplicity is exactly n. -/
theorem C3_event_coalescing (rng : ℕ → ℤ) (lag lag2 : ℤ)
    (m : CdGen.Machine) (w : RbfGen.Machine) (hr : m.S.rate_ > 0) :
    ((rng m.k = 0 → (CdGen.cdSampleEmit rng lag m).events = m.events) ∧
     (rng m.k > 0 →
       (CdGen.cdSampleEmit rng lag m).events = m.events ++ [(lag, rng m.k)])) ∧
    ((rng w.k = 0 → (RbfGen.event_hook rng lag2 w).events = w.events) ∧
     (rng w.k > 0 →
       (RbfGen.event_hook rng lag2 w).events = w.events ++ [(lag2, rng w.k)])) := by
  refine ⟨⟨?_, ?_⟩, ?_, ?_⟩
  · intro h0
    simp only [CdGen.cdSampleEmit, if_pos hr]
    rw [if_neg (by rw [h0]; exact lt_irrefl 0)]
  · intro hn
    simp only [CdGen.cdSampleEmit, if_pos hr]
    rw [if_pos hn]
  · intro h0
    rw [RbfGen.event_hook_events, if_neg (by rw [h0]; exact lt_irrefl 0)]
    simp
  · intro hn
    rw [RbfGen.event_hook_events, if_pos hn]

/-- Claim C3, witness: a positive rate and a drawn count of 3 at lag 2
produce exactly one event (2, 3) in both variants. -/
theorem C3_witness :
    (CdGen.cdSampleEmit (fun _ => 3) 2
      (CdGen.Machine.mk (CdGen.State.mk 5 0) 1 0 [] [])).events = [(2, 3)] ∧
    (RbfGen.event_hook (fun _ => 3) 2
      (RbfGen.Machine.mk (RbfGen.State.mk 5) 1 0 [] [])).events = [(2, 3)] := by
  have h := C3_event_coalescing (fun _ => 3) 2 2
    (CdGen.Machine.mk (CdGen.State.mk 5 0) 1 0 [] [])
    (RbfGen.Machine.mk (RbfGen.State.mk 5) 1 0 [] [])
    (by norm_num)
  exact ⟨by simpa using h.1.2 (by norm_num), by simpa using h.2.2 (by norm_num)⟩

/-- Claim C4: over a slice [lo, hi) with lo < hi, the rate stored at
the end of the RBF update is the gaussian rate of the average of the
drained currents, the average being their sum divided by (hi - lo);
and the update stores a rate exactly once per slice. -/
theorem C4_slice_averaging (P : RbfGen.Parameters) (res : ℝ)
    (rng : ℕ → ℤ) (gv : ℤ → ℝ) (lo hi : ℤ) (m : RbfGen.Machine)
    (h : lo < hi) :
    (RbfGen.rbfUpdate P res rng gv lo hi m).S.rate_ =
      RbfGen.rbfRate P (((lagList lo hi).map gv).sum / ((hi - lo : ℤ) : ℝ)) ∧
    (RbfGen.rbfUpdate P res rng gv lo hi m).trace.countP isSetRateAct =
      m.trace.countP isSetRateAct + 1 := by
  constructor
  · simp only [RbfGen.rbfUpdate, RbfGen.rbfLoop_fst, zero_add]
  · simp only [RbfGen.rbfUpdate, List.countP_append,
      RbfGen.rbfLoop_countP_setRate]
    simp [isSetRateAct]

/-- Claim C4, witness: a slice of 4 steps with drained currents
[0, 0, 2, 2] yields average current 1. -/
theorem C4_witness :
    (0 : ℤ) < 4 ∧
    (RbfGen.rbfUpdate (RbfGen.Parameters.mk 1 10 1 1) 1 (fun _ => 0)
        (fun lag => if lag < 2 then 0 else 2) 0 4
        (RbfGen.Machine.mk (RbfGen.State.mk 5) 0 0 [] [])).S.rate_ =
      RbfGen.rbfRate (RbfGen.Parameters.mk 1 10 1 1) 1 := by
  have h := (C4_slice_averaging (RbfGen.Parameters.mk 1 10 1 1) 1
    (fun _ => 0) (fun lag => if lag < 2 then 0 else 2) 0 4
    (RbfGen.Machine.mk (RbfGen.State.mk 5) 0 0 [] []) (by norm_num)).1
  refine ⟨by norm_num, ?_⟩
  rw [h]
  have hl : lagList 0 4 = [0, 1, 2, 3] := by decide
  have harg : ((lagList 0 4).map
      (fun lag => if lag < 2 then (0 : ℝ) else 2)).sum
        / ((4 - 0 : ℤ) : ℝ) = 1 := by
    rw [hl]
    norm_num
  rw [harg]

/-- Claim C5 (amended): in the linear variant, each step on which the
drained current changes records, in order, the drain, the rate store,
the lambda update, and then (at positive rate) a draw under the lambda
just computed for this step, followed by an emission when the count is
positive. In the RBF variant, the slice's rate store and lambda update
are appended after the whole per-lag loop, and every draw recorded by
the loop was made under the lambda in force before the slice began
(the previous slice's, or calibration's), not the lambda computed from
this slice's rate. -/
theorem C5_lambda_ordering (P : CdGen.Parameters) (res : ℚ)
    (rng : ℕ → ℤ) (gv : ℤ → ℚ) (lag : ℤ) (m : CdGen.Machine)
    (Q : RbfGen.Parameters) (res2 : ℝ) (rng2 : ℕ → ℤ) (gv2 : ℤ → ℝ)
    (lo hi : ℤ) (w : RbfGen.Machine)
    (hch : m.S.input_current_ ≠ gv lag) :
    (CdGen.cdStep P res rng gv lag m).trace =
      m.trace ++
        [DevAction.drain lag (gv lag),
         DevAction.setRate (CdGen.linearRate P (gv lag)),
         DevAction.setLambda (res * CdGen.linearRate P (gv lag) * (1 / 1000))] ++
        (if CdGen.linearRate P (gv lag) > 0 then
          [DevAction.draw (res * CdGen.linearRate P (gv lag) * (1 / 1000))
              (rng m.k)] ++
            (if rng m.k > 0 then [DevAction.emit lag (rng m.k)] else [])
        else []) ∧
    (RbfGen.rbfUpdate Q res2 rng2 gv2 lo hi w).trace =
      (RbfGen.rbfLoop rng2 gv2 (lagList lo hi) (0, w)).2.trace ++
        [DevAction.setRate (RbfGen.rbfRate Q
            (((lagList lo hi).map gv2).sum / ((hi - lo : ℤ) : ℝ))),
         DevAction.setLambda (res2 * RbfGen.rbfRate Q
            (((lagList lo hi).map gv2).sum / ((hi - lo : ℤ) : ℝ)) * (1 / 1000))] ∧
    (∀ l n, DevAction.draw l n ∈
        (RbfGen.rbfLoop rng2 gv2 (lagList lo hi) (0, w)).2.trace →
      DevAction.draw l n ∈ w.trace ∨ l = w.lambda) := by
  refine ⟨?_, ?_, ?_⟩
  · rw [CdGen.cdStep, CdGen.cdSampleEmit_trace]
    simp only [CdGen.cdRateUpdate]
    rw [if_pos (show
      ({ m with trace := m.trace ++ [DevAction.drain lag (gv lag)] } :
        CdGen.Machine).S.input_current_ ≠ gv lag from hch)]
    simp [List.append_assoc]
  · simp only [RbfGen.rbfUpdate, RbfGen.rbfLoop_fst, zero_add]
  · exact fun l n hmem => RbfGen.rbfLoop_draw_mem rng2 gv2 (lagList lo hi) 0 w l n hmem

/-- Claim C5, witness: a changed current 1/2 on the linear variant
produces, in order, drain, rate store 11/2, lambda update 11/2000, a
draw under 11/2000 and an emission of the drawn count 2. -/
theorem C5_witness :
    ((CdGen.Machine.mk (CdGen.State.mk 5 0) (1 / 200) 0 [] []).S.input_current_ ≠
      (1 / 2 : ℚ)) ∧
    (CdGen.cdStep (CdGen.Parameters.mk 1 10 0 1) 1 (fun _ => 2)
        (fun _ => 1 / 2) 0
        (CdGen.Machine.mk (CdGen.State.mk 5 0) (1 / 200) 0 [] [])).trace =
      [DevAction.drain 0 (1 / 2), DevAction.setRate (11 / 2),
       DevAction.setLambda (11 / 2000), DevAction.draw (11 / 2000) 2,
       DevAction.emit 0 2] := by
  have hch : (CdGen.Machine.mk (CdGen.State.mk 5 0) (1 / 200) 0 [] []).S.input_current_ ≠
      (1 / 2 : ℚ) := by norm_num
  refine ⟨hch, ?_⟩
  have h := (C5_lambda_ordering (CdGen.Parameters.mk 1 10 0 1) 1
    (fun _ => 2) (fun _ => 1 / 2) 0
    (CdGen.Machine.mk (CdGen.State.mk 5 0) (1 / 200) 0 [] [])
    (RbfGen.Parameters.mk 1 10 0 1) 1 (fun _ => 1) (fun _ => 1) 0 0
    (RbfGen.Machine.mk (RbfGen.State.mk 5) 0 0 [] []) hch).1
  rw [h]
  have hr : CdGen.linearRate (CdGen.Parameters.mk 1 10 0 1) (1 / 2) = 11 / 2 := by
    rw [CdGen.linearRate]
    norm_num
  rw [hr]
  norm_num

/-- Claim C5, counterexample: a one-step RBF slice starting with lambda
5/1000 whose drained current gives slice rate 10 (hence slice lambda
1/100) draws its spike count under the old lambda 5/1000 and updates
lambda to 1/100 only afterwards: the slice's draw is not made under the
lambda computed from this slice's rate. -/
theorem C5_counterexample :
    (RbfGen.rbfUpdate (RbfGen.Parameters.mk 1 10 0 1) 1 (fun _ => 1)
        (fun _ => 0) 0 1
        (RbfGen.Machine.mk (RbfGen.State.mk 5) (5 / 1000) 0 [] [])).trace =
      [DevAction.drain 0 0, DevAction.draw (5 / 1000) 1, DevAction.emit 0 1,
       DevAction.setRate 10, DevAction.setLambda (1 / 100)] ∧
    (5 / 1000 : ℝ) ≠ 1 / 100 := by
  have hrate : RbfGen.rbfRate (RbfGen.Parameters.mk 1 10 0 1) 0 = 10 := by
    rw [RbfGen.rbfRate, RbfGen.gaussianOf]
    norm_num
  have hlag : lagList 0 1 = [0] := by decide
  constructor
  · have h1 : RbfGen.rbfLoop (fun _ => 1) (fun _ => 0) [0]
        (0, RbfGen.Machine.mk (RbfGen.State.mk 5) (5 / 1000) 0 [] []) =
        (0, RbfGen.Machine.mk (RbfGen.State.mk 5) (5 / 1000) 1
          [DevAction.drain 0 0, DevAction.draw (5 / 1000) 1,
           DevAction.emit 0 1] [(0, 1)]) := by
      rw [RbfGen.rbfLoop_cons, RbfGen.rbfLoop_nil]
      simp only [RbfGen.event_hook]
      norm_num
    simp only [RbfGen.rbfUpdate, hlag, h1]
    norm_num [hrate]
  · norm_num

/-- Claim C6 (amended): the linear variant draws exactly when the rate
is positive — a non-positive rate skips the draw entirely (the
sampling block is the identity). The RBF variant's event_hook performs
exactly one draw per delivered event, regardless of the rate. -/
theorem C6_zero_rate_sampling (rng : ℕ → ℤ) (lag lag2 : ℤ)
    (m : CdGen.Machine) (w : RbfGen.Machine) :
    (m.S.rate_ > 0 →
      (CdGen.cdSampleEmit rng lag m).k = m.k + 1 ∧
      (CdGen.cdSampleEmit rng lag m).trace =
        m.trace ++ [DevAction.draw m.lambda (rng m.k)] ++
          (if rng m.k > 0 then [DevAction.emit lag (rng m.k)] else [])) ∧
    (¬ m.S.rate_ > 0 → CdGen.cdSampleEmit rng lag m = m) ∧
    ((RbfGen.event_hook rng lag2 w).k = w.k + 1 ∧
     (RbfGen.event_hook rng lag2 w).trace =
       w.trace ++ [DevAction.draw w.lambda (rng w.k)] ++
         (if rng w.k > 0 then [DevAction.emit lag2 (rng w.k)] else [])) := by
  refine ⟨?_, CdGen.cdSampleEmit_noRate rng lag m,
    RbfGen.event_hook_k rng lag2 w, RbfGen.event_hook_trace rng lag2 w⟩
  intro h
  refine ⟨?_, ?_⟩
  · rw [CdGen.cdSampleEmit_k, if_pos h]
  · rw [CdGen.cdSampleEmit_trace, if_pos h, List.append_assoc]

/-- Claim C6, witness: a positive rate makes the linear sampling block
consume exactly one draw. -/
theorem C6_witness :
    ((CdGen.Machine.mk (CdGen.State.mk 5 0) 1 0 [] []).S.rate_ > 0) ∧
    (CdGen.cdSampleEmit (fun _ => 0) 0
      (CdGen.Machine.mk (CdGen.State.mk 5 0) 1 0 [] [])).k = 1 := by
  have h := (C6_zero_rate_sampling (fun _ => 0) 0 0
    (CdGen.Machine.mk (CdGen.State.mk 5 0) 1 0 [] [])
    (RbfGen.Machine.mk (RbfGen.State.mk 5) 0 0 [] [])).1 (by norm_num)
  exact ⟨by norm_num, by simpa using h.1⟩

/-- Claim C6, counterexample: an RBF device whose rate is 0 still
performs a random draw on event delivery — event_hook has no rate
guard, so the RBF variant does not skip sampling at zero rate. -/
theorem C6_counterexample :
    (RbfGen.Machine.mk (RbfGen.State.mk 0) 0 0 [] []).S.rate_ = 0 ∧
    (RbfGen.event_hook (fun _ => 0) 0
      (RbfGen.Machine.mk (RbfGen.State.mk 0) 0 0 [] [])).k = 1 ∧
    (RbfGen.event_hook (fun _ => 0) 0
      (RbfGen.Machine.mk (RbfGen.State.mk 0) 0 0 [] [])).trace =
      [DevAction.draw 0 0] := by
  refine ⟨rfl, ?_, ?_⟩
  · rw [RbfGen.event_hook_k]
  · rw [RbfGen.event_hook_trace]
    norm_num

/-- Claim C7 (amended): the cd variant's Parameters_::set raises
BadProperty exactly when the resulting min_rate or max_rate is
negative — it does not check min_rate ≤ max_rate; the RBF variant's
Parameters_::set raises exactly when a resulting rate is negative or
min_rate > max_rate; and a raising cd set_status leaves the live
device unchanged. -/
theorem C7_validation (p : CdGen.Parameters) (d : CdGen.Dict)
    (q : RbfGen.Parameters) (e : RbfGen.Dict) (dev : CdGen.Device) :
    (CdGen.Parameters.set p d = Except.ok (p.applyDict d) ↔
      0 ≤ (p.applyDict d).min_rate_ ∧ 0 ≤ (p.applyDict d).max_rate_) ∧
    ((p.applyDict d).min_rate_ < 0 ∨ (p.applyDict d).max_rate_ < 0 →
      CdGen.Parameters.set p d = Except.error
        "The min_rate and max_rate parameters cannot be negative.") ∧
    (RbfGen.Parameters.set q e = Except.ok (q.applyDict e) ↔
      0 ≤ (q.applyDict e).min_rate_rbf_ ∧ 0 ≤ (q.applyDict e).max_rate_rbf_ ∧
      (q.applyDict e).min_rate_rbf_ ≤ (q.applyDict e).max_rate_rbf_) ∧
    ((CdGen.set_status dev d).2 = true → (CdGen.set_status dev d).1 = dev) := by
  refine ⟨?_, ?_, ?_, ?_⟩
  · simp only [CdGen.Parameters.set]
    split_ifs with hc
    · constructor
      · intro h
        exact absurd h (by simp)
      · rintro ⟨h1, h2⟩
        rcases hc with hc | hc
        · exact absurd hc (not_lt.mpr h1)
        · exact absurd hc (not_lt.mpr h2)
    · push_neg at hc
      exact ⟨fun _ => hc, fun _ => rfl⟩
  · intro hviol
    simp only [CdGen.Parameters.set]
    rw [if_pos hviol]
  · simp only [RbfGen.Parameters.set]
    split_ifs with hc
    · constructor
      · intro h
        exact absurd h (by simp)
      · rintro ⟨h1, h2, h3⟩
        rcases hc with hc | hc | hc
        · exact absurd hc (not_lt.mpr h1)
        · exact absurd hc (not_lt.mpr h2)
        · exact absurd hc (not_lt.mpr h3)
    · push_neg at hc
      exact ⟨fun _ => hc, fun _ => rfl⟩
  · simp only [CdGen.set_status]
    split
    · exact fun _ => rfl
    · intro h
      exact absurd h (by simp)

/-- Claim C7, witness: supplying min_rate = -1 makes the cd set raise. -/
theorem C7_witness :
    ((-1 : ℚ) < 0) ∧
    CdGen.Parameters.set (CdGen.Parameters.mk 1 10 0 1)
      (CdGen.Dict.mk (some (-1)) none none none none none) =
      Except.error "The min_rate and max_rate parameters cannot be negative." := by
  have h := (C7_validation (CdGen.Parameters.mk 1 10 0 1)
    (CdGen.Dict.mk (some (-1)) none none none none none)
    (RbfGen.Parameters.mk 1 10 0 1) (RbfGen.Dict.mk none none none none)
    (CdGen.Device.mk (CdGen.Parameters.mk 1 10 0 1) (CdGen.State.mk 5 0))).2.1
  exact ⟨by norm_num, h (Or.inl (by norm_num [CdGen.Parameters.applyDict]))⟩

/-- Claim C7, counterexample: the cd variant accepts min_rate = 10 >
max_rate = 1 without raising — the claimed invariant
min_rate ≤ max_rate is not enforced by the cd Parameters_::set. -/
theorem C7_counterexample :
    CdGen.Parameters.set (CdGen.Parameters.mk 1 10 0 1)
      (CdGen.Dict.mk (some 10) (some 1) none none none none) =
      Except.ok (CdGen.Parameters.mk 10 1 0 1) ∧
    ¬ ((CdGen.Parameters.mk 10 1 0 1).min_rate_ ≤
        (CdGen.Parameters.mk 10 1 0 1).max_rate_) := by
  refine ⟨rfl, by decide⟩

/-- Claim C8: a cd set_status whose dictionary fails validation (here
min_rate = -1) raises and leaves the live device exactly as it was; a
subsequent valid set_status succeeds and fully replaces the supplied
Parameters fields. -/
theorem C8_config_atomicity (dev : CdGen.Device) (d d2 : CdGen.Dict)
    (a b c e : ℚ)
    (h1 : d.min_rate = some (-1))
    (h2 : d2.min_rate = some a) (h3 : d2.max_rate = some b)
    (h4 : d2.min_current = some c) (h5 : d2.max_current = some e)
    (ha : 0 ≤ a) (hb : 0 ≤ b) :
    CdGen.set_status dev d = (dev, true) ∧
    CdGen.set_status dev d2 =
      (CdGen.Device.mk (CdGen.Parameters.mk a b c e) (dev.S_.set d2), false) := by
  constructor
  · have hc : (dev.P_.applyDict d).min_rate_ < 0 ∨
        (dev.P_.applyDict d).max_rate_ < 0 := by
      left
      simp only [CdGen.Parameters.applyDict, h1, Option.getD_some]
      norm_num
    have hset : dev.P_.set d = Except.error
        "The min_rate and max_rate parameters cannot be negative." := by
      simp only [CdGen.Parameters.set]
      rw [if_pos hc]
    simp [CdGen.set_status, hset]
  · have happ : dev.P_.applyDict d2 = CdGen.Parameters.mk a b c e := by
      simp [CdGen.Parameters.applyDict, h2, h3, h4, h5]
    have hok : dev.P_.set d2 = Except.ok (CdGen.Parameters.mk a b c e) := by
      simp only [CdGen.Parameters.set, happ]
      rw [if_neg]
      push_neg
      exact ⟨ha, hb⟩
    simp [CdGen.set_status, hok]

/-- Claim C8, witness: concrete device, failing then valid dictionary. -/
theorem C8_witness :
    CdGen.set_status
      (CdGen.Device.mk (CdGen.Parameters.mk 1 10 0 1) (CdGen.State.mk 5 0))
      (CdGen.Dict.mk (some (-1)) none none none none none) =
      (CdGen.Device.mk (CdGen.Parameters.mk 1 10 0 1) (CdGen.State.mk 5 0),
        true) ∧
    CdGen.set_status
      (CdGen.Device.mk (CdGen.Parameters.mk 1 10 0 1) (CdGen.State.mk 5 0))
      (CdGen.Dict.mk (some 2) (some 20) (some 1) (some 3) none none) =
      (CdGen.Device.mk (CdGen.Parameters.mk 2 20 1 3) (CdGen.State.mk 5 0),
        false) := by
  have h := C8_config_atomicity
    (CdGen.Device.mk (CdGen.Parameters.mk 1 10 0 1) (CdGen.State.mk 5 0))
    (CdGen.Dict.mk (some (-1)) none none none none none)
    (CdGen.Dict.mk (some 2) (some 20) (some 1) (some 3) none none)
    2 20 1 3 rfl rfl rfl rfl rfl (by norm_num) (by norm_num)
  exact ⟨h.1, h.2⟩

/-- Claim C9, counterexample: with min_current = max_current (here both
0) no input reaches the interpolation branch — the only division site
of the linear rate block — since any input satisfies one of the two
saturation guards; so no input triggers a division by zero. -/
theorem C9_counterexample :
    ¬ ∃ I : ℚ, CdGen.interpReached (CdGen.Parameters.mk 1 10 0 0) I := by
  rintro ⟨I, h1, h2⟩
  exact h2 (le_of_lt (not_le.mp h1))

/-- Claim C9 (amended): when max_current = min_current, the
interpolation branch of the linear rate block is unreachable — every
input takes one of the saturation branches, so the division with zero
denominator is never evaluated — and the configuration is nonetheless
accepted at validation time (validation only checks rate signs). -/
theorem C9_no_div_by_zero (P : CdGen.Parameters) (I c : ℚ)
    (heq : P.max_current_ = P.min_current_)
    (hmin : 0 ≤ P.min_rate_) (hmax : 0 ≤ P.max_rate_) :
    ¬ CdGen.interpReached P I ∧
    CdGen.linearRate P I =
      (if I ≤ P.min_current_ then P.min_rate_ else P.max_rate_) ∧
    CdGen.Parameters.set P
      (CdGen.Dict.mk none none (some c) (some c) none none) =
      Except.ok (CdGen.Parameters.mk P.min_rate_ P.max_rate_ c c) := by
  refine ⟨?_, ?_, ?_⟩
  · rintro ⟨h1, h2⟩
    rw [heq] at h2
    exact h2 (le_of_lt (not_le.mp h1))
  · rw [CdGen.linearRate]
    split_ifs with g1 g2
    · rfl
    · rfl
    · exfalso
      rw [heq] at g2
      exact g2 (le_of_lt (not_le.mp g1))
  · have hc : ¬ ((P.applyDict
        (CdGen.Dict.mk none none (some c) (some c) none none)).min_rate_ < 0 ∨
      (P.applyDict
        (CdGen.Dict.mk none none (some c) (some c) none none)).max_rate_ < 0) := by
      push_neg
      exact ⟨by simpa [CdGen.Parameters.applyDict] using hmin,
        by simpa [CdGen.Parameters.applyDict] using hmax⟩
    simp only [CdGen.Parameters.set]
    rw [if_neg hc]
    congr 1

/-- Claim C9, witness: concrete degenerate parameters min_current =
max_current = 0, input 5; the branch is not reached and a set with
min_current = max_current = 3 is accepted. -/
theorem C9_witness :
    ((CdGen.Parameters.mk 1 10 0 0).max_current_ =
      (CdGen.Parameters.mk 1 10 0 0).min_current_) ∧
    ¬ CdGen.interpReached (CdGen.Parameters.mk 1 10 0 0) 5 ∧
    CdGen.Parameters.set (CdGen.Parameters.mk 1 10 0 0)
      (CdGen.Dict.mk none none (some 3) (some 3) none none) =
      Except.ok (CdGen.Parameters.mk 1 10 3 3) := by
  have h := C9_no_div_by_zero (CdGen.Parameters.mk 1 10 0 0) 5 3 rfl
    (by norm_num) (by norm_num)
  exact ⟨rfl, h.1, h.2.2⟩

namespace CdGen

/-- With min_rate ≤ max_rate the linear rate block stays within
[min_rate, max_rate] on every branch. -/
theorem linearRate_bounds (P : Parameters) (I : ℚ)
    (h : P.min_rate_ ≤ P.max_rate_) :
    P.min_rate_ ≤ linearRate P I ∧ linearRate P I ≤ P.max_rate_ := by
  rw [linearRate]
  split_ifs with g1 g2
  · exact ⟨le_refl _, h⟩
  · exact ⟨h, le_refl _⟩
  · push_neg at g1 g2
    have hd : 0 < P.max_current_ - P.min_current_ := by linarith
    have ht1 : 0 ≤ (I - P.min_current_) / (P.max_current_ - P.min_current_) :=
      div_nonneg (by linarith) (le_of_lt hd)
    have ht2 : (I - P.min_current_) / (P.max_current_ - P.min_current_) ≤ 1 := by
      rw [div_le_one hd]
      linarith
    have hD : 0 ≤ P.max_rate_ - P.min_rate_ := by linarith
    have hm1 : 0 ≤ (I - P.min_current_) / (P.max_current_ - P.min_current_)
        * (P.max_rate_ - P.min_rate_) := mul_nonneg ht1 hD
    have hm2 : (I - P.min_current_) / (P.max_current_ - P.min_current_)
        * (P.max_rate_ - P.min_rate_) ≤ P.max_rate_ - P.min_rate_ :=
      mul_le_of_le_one_left hD ht2
    exact ⟨by linarith, by linarith⟩

end CdGen

namespace RbfGen

/-- The gaussian factor is strictly positive. -/
theorem gaussianOf_pos (P : Parameters) (x : ℝ) : 0 < gaussianOf P x :=
  Real.exp_pos _

/-- The gaussian factor never exceeds 1: its exponent is non-positive. -/
theorem gaussianOf_le_one (P : Parameters) (x : ℝ) : gaussianOf P x ≤ 1 := by
  rw [gaussianOf, Real.exp_le_one_iff]
  apply div_nonpos_of_nonpos_of_nonneg
  · exact neg_nonpos_of_nonneg (mul_self_nonneg _)
  · nlinarith [mul_self_nonneg P.sigma_current_rbf_]

/-- With min_rate_rbf ≤ max_rate_rbf the gaussian rate stays within
[min_rate_rbf, max_rate_rbf]. -/
theorem rbfRate_bounds (P : Parameters) (x : ℝ)
    (h : P.min_rate_rbf_ ≤ P.max_rate_rbf_) :
    P.min_rate_rbf_ ≤ rbfRate P x ∧ rbfRate P x ≤ P.max_rate_rbf_ := by
  have hg0 := gaussianOf_pos P x
  have hg1 := gaussianOf_le_one P x
  rw [rbfRate]
  constructor
  · nlinarith
  · nlinarith

/-- The rate stored by the RBF update is the gaussian rate of the
slice average. -/
theorem rbfUpdate_S_rate (P : Parameters) (res : ℝ) (rng : ℕ → ℤ)
    (gv : ℤ → ℝ) (lo hi : ℤ) (m : Machine) :
    (rbfUpdate P res rng gv lo hi m).S.rate_ =
      rbfRate P (((lagList lo hi).map gv).sum / ((hi - lo : ℤ) : ℝ)) := by
  simp only [rbfUpdate, rbfLoop_fst, zero_add]

end RbfGen

/-- Claim C10 (amended): with min_rate ≤ max_rate every rate produced
by the linear block (hence stored by calibrate and by a changed-current
update step) lies in [min_rate, max_rate]; every RBF rate (hence the
rate stored at slice end) lies in [min_rate_rbf, max_rate_rbf]; and it
exceeds min_rate_rbf strictly whenever min_rate_rbf < max_rate_rbf (if
min_rate_rbf = max_rate_rbf the rate equals both bounds, so the
half-open interval (min_rate, max_rate] of the claim is empty). -/
theorem C10_rate_bounds (P : CdGen.Parameters) (I res : ℚ)
    (m : CdGen.Machine) (Q : RbfGen.Parameters) (x res2 : ℝ)
    (rng : ℕ → ℤ) (gv : ℤ → ℝ) (lo hi : ℤ) (w : RbfGen.Machine)
    (hP : P.min_rate_ ≤ P.max_rate_)
    (hQ : Q.min_rate_rbf_ ≤ Q.max_rate_rbf_)
    (hs : Q.sigma_current_rbf_ ≠ 0) :
    (P.min_rate_ ≤ CdGen.linearRate P I ∧
      CdGen.linearRate P I ≤ P.max_rate_) ∧
    (P.min_rate_ ≤ (CdGen.calibrate P res m).S.rate_ ∧
      (CdGen.calibrate P res m).S.rate_ ≤ P.max_rate_) ∧
    (Q.min_rate_rbf_ ≤ RbfGen.rbfRate Q x ∧
      RbfGen.rbfRate Q x ≤ Q.max_rate_rbf_) ∧
    (Q.min_rate_rbf_ ≤ (RbfGen.rbfUpdate Q res2 rng gv lo hi w).S.rate_ ∧
      (RbfGen.rbfUpdate Q res2 rng gv lo hi w).S.rate_ ≤ Q.max_rate_rbf_) ∧
    (Q.min_rate_rbf_ < Q.max_rate_rbf_ →
      Q.min_rate_rbf_ < RbfGen.rbfRate Q x) := by
  refine ⟨CdGen.linearRate_bounds P I hP, ?_,
    RbfGen.rbfRate_bounds Q x hQ, ?_, ?_⟩
  · rw [CdGen.calibrate_S_rate]
    exact CdGen.linearRate_bounds P _ hP
  · rw [RbfGen.rbfUpdate_S_rate]
    exact RbfGen.rbfRate_bounds Q _ hQ
  · intro hlt
    have hg0 := RbfGen.gaussianOf_pos Q x
    rw [RbfGen.rbfRate]
    nlinarith

/-- Claim C10, witness: parameters 1..10 on both variants; the linear
rate at a saturating input is within bounds and the RBF rate strictly
exceeds its minimum. -/
theorem C10_witness :
    ((1 : ℚ) ≤ 10) ∧ ((1 : ℝ) ≤ 10) ∧ ((1 : ℝ) ≠ 0) ∧
    ((1 : ℚ) ≤ CdGen.linearRate (CdGen.Parameters.mk 1 10 0 1) 5 ∧
      CdGen.linearRate (CdGen.Parameters.mk 1 10 0 1) 5 ≤ 10) ∧
    ((1 : ℝ) < RbfGen.rbfRate (RbfGen.Parameters.mk 1 10 0 1) 7) := by
  have h := C10_rate_bounds (CdGen.Parameters.mk 1 10 0 1) 5 1
    (CdGen.Machine.mk (CdGen.State.mk 5 0) 0 0 [] [])
    (RbfGen.Parameters.mk 1 10 0 1) 7 1 (fun _ => 0) (fun _ => 0) 0 1
    (RbfGen.Machine.mk (RbfGen.State.mk 5) 0 0 [] [])
    (by norm_num) (by norm_num) one_ne_zero
  exact ⟨by norm_num, by norm_num, one_ne_zero, h.1, h.2.2.2.2 (by norm_num)⟩

/-- Claim C10, counterexample: with min_rate_rbf = max_rate_rbf = 5 and
sigma = 1, the RBF rate is exactly 5, which does not lie in the claimed
half-open interval (min_rate, max_rate] = (5, 5]. -/
theorem C10_counterexample :
    ((RbfGen.Parameters.mk 5 5 0 1).min_rate_rbf_ ≤
      (RbfGen.Parameters.mk 5 5 0 1).max_rate_rbf_) ∧
    ((RbfGen.Parameters.mk 5 5 0 1).sigma_current_rbf_ ≠ 0) ∧
    RbfGen.rbfRate (RbfGen.Parameters.mk 5 5 0 1) 0 = 5 ∧
    ¬ ((RbfGen.Parameters.mk 5 5 0 1).min_rate_rbf_ <
        RbfGen.rbfRate (RbfGen.Parameters.mk 5 5 0 1) 0) := by
  have h5 : RbfGen.rbfRate (RbfGen.Parameters.mk 5 5 0 1) 0 = 5 := by
    rw [RbfGen.rbfRate]
    norm_num
  refine ⟨le_refl _, one_ne_zero, h5, ?_⟩
  rw [h5]
  exact lt_irrefl 5
